import Mathlib

/-!
A shallow embedding of `src/server.js` (a small Express server orchestrating
yt-dlp, ffmpeg and the Groq transcription/chat APIs), together with theorems
about the contracts its specification states.

External effects are made explicit parameters:
* the outcome of each external-process invocation (`Except`),
* the outcome of the chat-completion call (`Except String (Option String)`:
  a rejected promise, or the possibly-missing reply content),
* `JSON.parse` on extracted text (`String → Option _`, `none` modelling a
  thrown parse error),
* the file system, reduced to the booleans and listings each handler inspects.
-/

/-- A JavaScript request-body field value, as far as the server inspects one.
`undef` models an absent field (JavaScript `undefined`). -/
inductive JVal where
  | undef
  | null
  | num (n : Int)
  | str (s : String)
  | boolean (b : Bool)
deriving DecidableEq

/-- JavaScript truthiness of a field value; `!v` in the source negates this. -/
def truthy : JVal → Bool
  | .undef => false
  | .null => false
  | .num n => n != 0
  | .str s => s != ""
  | .boolean b => b

/-- The strict test `v === undefined` from the source's create-clip validation. -/
def isUndef : JVal → Bool
  | .undef => true
  | _ => false

/-- One timestamped span of recognized speech, as returned by the
transcription API (`verbose_json` with segment granularity). -/
structure TranscriptSegment where
  start : ℚ
  «end» : ℚ
  text : String
deriving DecidableEq

/-- The transcription object consumed by `findHighlights`: full text plus a
possibly-missing segment list (the source defends with `transcription.segments || []`). -/
structure Transcription where
  text : String
  segments : Option (List TranscriptSegment)
deriving DecidableEq

/-- One highlight object parsed out of the chat-completion reply. -/
structure Highlight where
  start : Int
  «end» : Int
  title : String
  reason : String
  score : Int
deriving DecidableEq

/-- Descending-score order realised by `highlights.sort((a, b) => b.score - a.score)`. -/
def scoreGE (a b : Highlight) : Prop := b.score ≤ a.score

instance : DecidableRel scoreGE := fun a b => inferInstanceAs (Decidable (b.score ≤ a.score))

instance : IsTotal Highlight scoreGE := ⟨fun a b => le_total b.score a.score⟩

instance : IsTrans Highlight scoreGE := ⟨fun _ _ _ h1 h2 => le_trans h2 h1⟩

/-- The stable sort the source applies to the parsed highlight array. -/
def sortHighlights (l : List Highlight) : List Highlight := List.insertionSort scoreGE l

/-- Index of the first occurrence of a character in a character list. -/
def firstIdxOf (c : Char) : List Char → Option Nat
  | [] => none
  | x :: xs => if x = c then some 0 else (firstIdxOf c xs).map (· + 1)

/-- Index of the last occurrence of a character in a character list. -/
def lastIdxOf (c : Char) (l : List Char) : Option Nat :=
  (firstIdxOf c l.reverse).map (fun i => l.length - 1 - i)

/-- The source's `response.match(/\[\[\s\S\]*\]/)` (written here with the
character class spelled out): the leftmost match of a greedy bracketed block,
which is the substring running from the first opening bracket to the last
closing bracket, provided the former precedes the latter. -/
def jsMatchArray (s : String) : Option String :=
  match firstIdxOf '[' s.data, lastIdxOf ']' s.data with
  | some f, some l =>
    if f < l then some (String.mk ((s.data.drop f).take (l - f + 1))) else none
  | _, _ => none

/-- The source's `completion.choices[0]?.message?.content || '[]'`: a missing
or empty reply content falls back to the literal text `[]`. -/
def effectiveResponse : Option String → String
  | none => "[]"
  | some s => if s = "" then "[]" else s

/-- `findHighlights` from the source. `parse` abstracts `JSON.parse` applied to
the matched substring (`none` models a thrown parse error, which the source's
`catch` turns into `[]`); `chat` is the outcome of the single chat-completion
call (`Except.error` models a rejected call, likewise absorbed). The `Nat`
component counts chat-completion calls performed, so that "no external call is
made" is expressible. -/
def findHighlights (parse : String → Option (List Highlight))
    (chat : Except String (Option String)) (transcription : Transcription) :
    List Highlight × Nat :=
  let segments := transcription.segments.getD []
  if segments.isEmpty then ([], 0)
  else
    match chat with
    | .error _ => ([], 1)
    | .ok content =>
      let response := effectiveResponse content
      match jsMatchArray response with
      | some matched =>
        match parse matched with
        | some highlights => (sortHighlights highlights, 1)
        | none => ([], 1)
      | none => ([], 1)

/-- Truncation toward zero: the implicit quotient in the JavaScript remainder
`a % b = a - b * trunc(a / b)`. -/
def jsTrunc (q : ℚ) : Int := if q < 0 then ⌈q⌉ else ⌊q⌋

/-- The JavaScript `%` operator on (finite) numbers. -/
def jsRem (a b : ℚ) : ℚ := a - b * (jsTrunc (a / b) : ℚ)

/-- JavaScript `String.prototype.padStart(2, '0')`. -/
def padStart2 (s : String) : String := if s.length < 2 then "0" ++ s else s

/-- `formatTime` from the source: `Math.floor(seconds / 60)`, a colon, and
`Math.floor(seconds % 60)` zero-padded to two digits. -/
def formatTime (seconds : ℚ) : String :=
  let mins : Int := ⌊seconds / 60⌋
  let secs : Int := ⌊jsRem seconds 60⌋
  toString mins ++ ":" ++ padStart2 (toString secs)

/-- The time-format contract as the spec words it: minutes is the integer
floor of seconds divided by sixty, and the remainder of seconds modulo sixty
is floored and zero-padded to two digits. Stated for comparison with the
source-derived `formatTime`. -/
def formatTimeSpec (s : ℚ) : String :=
  toString ⌊s / 60⌋ ++ ":" ++ padStart2 (toString ⌊s - 60 * ((⌊s / 60⌋ : Int) : ℚ)⌋)

/-- The parsed structured output of `yt-dlp --dump-json`, restricted to the
fields the video-info handler reads (`uploader` and `channel` may be absent). -/
structure RawInfo where
  title : String
  duration : Int
  thumbnail : String
  uploader : Option String
  channel : Option String
  id : String
deriving DecidableEq

/-- `info.uploader || info.channel`: the fallback the handler applies when the
primary author field is absent or empty. -/
def authorOf (info : RawInfo) : Option String :=
  match info.uploader with
  | some s => if s = "" then info.channel else some s
  | none => info.channel

/-- Outcome of one `exec` invocation: a failure (non-zero exit, signal or
timeout) or the captured standard output. -/
inductive ExecResult where
  | failed
  | output (stdout : String)
deriving DecidableEq

/-- Body of a video-info response. -/
inductive InfoBody where
  | errorMsg (msg : String)
  | infoSuccess (title : String) (duration : Int) (thumbnail : String)
      (author : Option String) (videoId : String)
deriving DecidableEq

/-- What the video-info request ends as: an HTTP response, or `uncaught` — an
exception thrown inside the asynchronous `exec` callback that no handler code
catches, so no response is ever sent for the request. -/
inductive VideoInfoOutcome where
  | resp (status : Nat) (body : InfoBody)
  | uncaught
deriving DecidableEq

/-- The `POST /api/video-info` handler. `parse` abstracts `JSON.parse` on the
utility's standard output (`none` models a thrown parse error). The source's
`try`/`catch` wraps only the synchronous registration of the `exec` callback;
the callback body itself runs later, outside the `try`, so a `JSON.parse`
throw there is uncaught. -/
def videoInfoHandler (parse : String → Option RawInfo) (url : JVal)
    (ex : ExecResult) : VideoInfoOutcome :=
  if !truthy url then .resp 400 (.errorMsg "URL fehlt")
  else
    match ex with
    | .failed => .resp 500 (.errorMsg "Video nicht gefunden")
    | .output stdout =>
      match parse stdout with
      | some info =>
        .resp 200 (.infoSuccess info.title info.duration info.thumbnail
          (authorOf info) info.id)
      | none => .uncaught

/-- `fs.existsSync` on the single temporary audio file, whose presence the
analyze handler tracks as one boolean. -/
def existsSync (fileExists : Bool) : Bool := fileExists

/-- `fs.unlinkSync` under normal file-system semantics: removing a file leaves
it absent. Every `unlinkSync` call in the analyze handler is made on an
existing file (the success path runs only after a successful extraction, and
the catch path guards with `existsSync`). -/
def unlinkFile (_fileExists : Bool) : Bool := false

/-- The external outcomes one analyze-video request can observe: the audio
extraction (`Except.error` models a failed `yt-dlp` run, with the flag telling
whether a partial file was left behind), the transcription call, the
chat-completion call, and the `JSON.parse` abstraction. -/
structure AnalyzeWorld where
  extractResult : Except String Unit
  extractErrorLeavesFile : Bool
  transcribeResult : Except String Transcription
  chatResult : Except String (Option String)
  parse : String → Option (List Highlight)

/-- An analyze-video response: status and whether it is the success shape. -/
structure AnalyzeResp where
  status : Nat
  isSuccess : Bool
deriving DecidableEq

/-- The `catch` block of the analyze handler: delete the temporary audio file
if it still exists, then answer 500. Returns the response paired with whether
the temporary file exists afterwards. -/
def analyzeCatch (fileExists : Bool) : AnalyzeResp × Bool :=
  (⟨500, false⟩, if existsSync fileExists then unlinkFile fileExists else fileExists)

/-- The `POST /api/analyze-video` handler. Returns the response paired with
whether the request's temporary audio file exists once the request completes.
A successful extraction leaves the audio file on disk; a failed one may leave
a partial file (`extractErrorLeavesFile`). -/
def analyzeVideoHandler (w : AnalyzeWorld) (hasKey : Bool) (url : JVal) :
    AnalyzeResp × Bool :=
  if !truthy url then (⟨400, false⟩, false)
  else if !hasKey then (⟨500, false⟩, false)
  else
    match w.extractResult with
    | .error _ => analyzeCatch w.extractErrorLeavesFile
    | .ok _ =>
      let fileExists := true
      match w.transcribeResult with
      | .error _ => analyzeCatch fileExists
      | .ok t =>
        let _highlights := (findHighlights w.parse w.chatResult t).1
        (⟨200, true⟩, unlinkFile fileExists)

/-- The character class `[a-zA-Z0-9-_]` kept by the clip-name sanitizer. -/
def isSafeFileChar (c : Char) : Bool :=
  c.isAlpha || c.isDigit || c = '-' || c = '_'

/-- `(clipName || 'clip').replace(/[^a-zA-Z0-9-_]/g, '_').substring(0, 50)`:
a falsy clip name (absent or empty) defaults to `clip`; every character
outside the safe class becomes an underscore; the result is cut to at most 50
characters. -/
def safeName (clipName : Option String) : String :=
  let base :=
    match clipName with
    | none => "clip"
    | some s => if s = "" then "clip" else s
  String.mk ((base.data.map fun c => if isSafeFileChar c then c else '_').take 50)

/-- The output filename `safeName-timestamp.mp4` built by the create-clip
handler (`now` is the `Date.now()` value). -/
def outputFile (clipName : Option String) (now : Nat) : String :=
  safeName clipName ++ "-" ++ toString now ++ ".mp4"

/-- What a create-clip request answers with, plus whether the external
download/transcode pipeline was invoked at all. -/
structure ClipOutcome where
  status : Nat
  errorField : Option String
  execInvoked : Bool
deriving DecidableEq

/-- The `POST /api/create-clip` handler. `ex` is the piped pipeline's outcome
and `outExists` whether the output file exists after a clean exit. -/
def createClipHandler (url startTime duration : JVal) (clipName : Option String)
    (now : Nat) (ex : Except Unit Unit) (outExists : Bool) : ClipOutcome :=
  if !truthy url || isUndef startTime || !truthy duration then
    ⟨400, some "Parameter fehlen", false⟩
  else
    let _file := outputFile clipName now
    match ex with
    | .error _ => ⟨500, some "Clip-Erstellung fehlgeschlagen", true⟩
    | .ok _ =>
      if outExists then ⟨200, none, true⟩
      else ⟨500, some "Clip-Erstellung fehlgeschlagen", true⟩

/-- The rejection condition as the claim words it: url missing, startTime
undefined, or duration falsy. Stated for comparison with the source's
`!url || startTime === undefined || !duration`. -/
def claimedClipRejectCond (url startTime duration : JVal) : Bool :=
  isUndef url || isUndef startTime || !truthy duration

/-- One directory entry as the cleanup sweep sees it: its name, its
last-modified time in milliseconds, and whether `statSync` respectively
`unlinkSync` would throw for it. -/
structure DirEntry where
  name : String
  mtimeMs : Int
  statFails : Bool
  unlinkFails : Bool
deriving DecidableEq

/-- The fixed age threshold: `Date.now() - 3600000` (one hour). -/
def cleanupThreshold (now : Int) : Int := now - 3600000

/-- The per-entry body of the sweep, wrapped in `try { } catch {}` in the
source: a throwing `statSync` leaves the entry untouched; an entry older than
the threshold is unlinked, surviving only if `unlinkSync` throws; a younger
entry is kept. -/
def entrySurvives (now : Int) (e : DirEntry) : Bool :=
  if e.statFails then true
  else if e.mtimeMs < cleanupThreshold now then e.unlinkFails
  else true

/-- One sweep cycle over one directory: the entries still present afterwards.
The per-entry `try`/`catch` means every entry is processed independently. -/
def sweepDir (now : Int) (entries : List DirEntry) : List DirEntry :=
  entries.filter (entrySurvives now)

/-- The interval between sweep cycles, from `setInterval(…, 1800000)`. -/
def sweepIntervalMs : Nat := 1800000

/-- A `JSON.parse` abstraction that fails on every input. -/
def pFail : String → Option (List Highlight) := fun _ => none

/-- A sample transcript segment. -/
def segA : TranscriptSegment := ⟨0, 10, "hello"⟩

/-- A sample transcription with one segment. -/
def trA : Transcription := ⟨"hello", some [segA]⟩

/-- Highlight with score 50 from the spec's example. -/
def hlA : Highlight := ⟨0, 20, "A", "x", 50⟩

/-- Highlight with score 90 from the spec's example. -/
def hlB : Highlight := ⟨20, 40, "B", "y", 90⟩

/-- A `JSON.parse` abstraction returning the spec example's array, A (score
50) before B (score 90). -/
def parseAB : String → Option (List Highlight) := fun _ => some [hlA, hlB]

/-- A transcription whose segment sequence is present but empty. -/
def trEmpty : Transcription := ⟨"", some []⟩

/-- A `JSON.parse` abstraction for yt-dlp output that fails on every input,
as `JSON.parse` does on non-JSON text. -/
def parseInfoFail : String → Option RawInfo := fun _ => none

/-- A sample analyze-video environment where every external step succeeds. -/
def worldA : AnalyzeWorld :=
  ⟨.ok (), true, .ok trA, .ok (some "[ok]"), pFail⟩

/-- Six highlight objects with distinct scores. -/
def sixHighlights : List Highlight :=
  [⟨0, 20, "a", "r", 10⟩, ⟨20, 40, "b", "r", 20⟩, ⟨40, 60, "c", "r", 30⟩,
   ⟨60, 80, "d", "r", 40⟩, ⟨80, 100, "e", "r", 50⟩, ⟨100, 120, "f", "r", 60⟩]

/-- A `JSON.parse` abstraction whose parsed array has six items. -/
def parseSix : String → Option (List Highlight) := fun _ => some sixHighlights

/-- An entry last modified at time 0, well past the threshold. -/
def oldEntry : DirEntry := ⟨"old.mp4", 0, false, false⟩

/-- An entry modified within the last hour. -/
def youngEntry : DirEntry := ⟨"young.mp4", 7000000, false, false⟩

/-- Claim C1: for every raw chat-completion reply, if the reply contains no
substring matching the greedy bracket-delimited array pattern, or JSON-parsing
the matched substring fails, or the chat-completion call itself fails, then
`findHighlights` returns an empty highlight list. It is a total function into
`List Highlight × Nat`, so no error propagates to the enclosing analyze-video
request in any of these cases. -/
theorem findHighlights_absorbs_failures (parse : String → Option (List Highlight))
    (t : Transcription) :
    (∀ e, (findHighlights parse (.error e) t).1 = []) ∧
    (∀ content, jsMatchArray (effectiveResponse content) = none →
      (findHighlights parse (.ok content) t).1 = []) ∧
    (∀ content matched, jsMatchArray (effectiveResponse content) = some matched →
      parse matched = none → (findHighlights parse (.ok content) t).1 = []) := by
  refine ⟨fun e => ?_, fun content h => ?_, fun content matched hm hp => ?_⟩
  · by_cases hseg : (t.segments.getD []).isEmpty <;> simp [findHighlights, hseg]
  · by_cases hseg : (t.segments.getD []).isEmpty <;> simp [findHighlights, hseg, h]
  · by_cases hseg : (t.segments.getD []).isEmpty <;> simp [findHighlights, hseg, hm, hp]

/-- Witness for C1: concrete failing chat call, bracket-free reply, and
unparseable matched substring all yield the empty highlight list. -/
theorem findHighlights_absorbs_failures_witness :
    (findHighlights pFail (.error "boom") trA).1 = [] ∧
    (findHighlights pFail (.ok (some "no json here")) trA).1 = [] ∧
    (findHighlights pFail (.ok (some "x [1] y")) trA).1 = [] :=
  ⟨(findHighlights_absorbs_failures pFail trA).1 "boom",
   (findHighlights_absorbs_failures pFail trA).2.1 (some "no json here") (by decide),
   (findHighlights_absorbs_failures pFail trA).2.2 (some "x [1] y") "[1]" (by decide) rfl⟩

/-- Claim C2: whenever a JSON array of highlight objects is successfully
extracted and parsed from the reply, `findHighlights` returns exactly that
array stably sorted descending by `score` — so the result is sorted for the
descending-score order and is a permutation of the parsed array. -/
theorem findHighlights_sorts_desc (parse : String → Option (List Highlight))
    (t : Transcription) (content : Option String) (matched : String)
    (hs : List Highlight)
    (hseg : (t.segments.getD []).isEmpty = false)
    (hm : jsMatchArray (effectiveResponse content) = some matched)
    (hp : parse matched = some hs) :
    (findHighlights parse (.ok content) t).1 = sortHighlights hs ∧
    List.Sorted scoreGE (findHighlights parse (.ok content) t).1 ∧
    List.Perm (findHighlights parse (.ok content) t).1 hs := by
  have hres : (findHighlights parse (.ok content) t).1 = sortHighlights hs := by
    simp [findHighlights, hseg, hm, hp]
  refine ⟨hres, ?_, ?_⟩
  · rw [hres]
    exact List.sorted_insertionSort scoreGE hs
  · rw [hres]
    exact List.perm_insertionSort scoreGE hs

/-- Witness for C2: a reply embedding two items with scores 50 and 90 comes
back with the score-90 item first. -/
theorem findHighlights_sorts_desc_witness :
    (findHighlights parseAB (.ok (some "here: [A 50, B 90]")) trA).1 = [hlB, hlA] := by
  have h := (findHighlights_sorts_desc parseAB trA (some "here: [A 50, B 90]")
    "[A 50, B 90]" [hlA, hlB] (by decide) (by decide) rfl).1
  rw [h]
  decide

/-- Claim C3: on a transcript whose segment sequence is empty,
`findHighlights` returns the empty highlight list immediately and the count of
chat-completion calls performed is zero. -/
theorem findHighlights_empty_segments (parse : String → Option (List Highlight))
    (chat : Except String (Option String)) (t : Transcription)
    (h : t.segments.getD [] = []) :
    findHighlights parse chat t = ([], 0) := by
  simp [findHighlights, h]

/-- Witness for C3: the empty-segment transcription yields no highlights and
no chat call, even with a perfectly parseable reply waiting. -/
theorem findHighlights_empty_segments_witness :
    findHighlights parseAB (.ok (some "[ok]")) trEmpty = ([], 0) :=
  findHighlights_empty_segments parseAB (.ok (some "[ok]")) trEmpty rfl

/-- Claim C4: for every non-negative number of seconds, `formatTime` agrees
with the spec's contract (floor of s divided by 60, a colon, floor of s mod 60
zero-padded to two digits), and in particular takes the three stated values. -/
theorem formatTime_meets_spec :
    (∀ s : ℚ, 0 ≤ s → formatTime s = formatTimeSpec s) ∧
    formatTime 0 = "0:00" ∧ formatTime 65 = "1:05" ∧ formatTime 3599 = "59:59" := by
  refine ⟨?_, ?_, ?_, ?_⟩
  · intro s hs
    have hq : ¬(s / 60 < 0) := not_lt.mpr (div_nonneg hs (by norm_num))
    simp [formatTime, formatTimeSpec, jsRem, jsTrunc, hq]
  · have h1 : (⌊(0 : ℚ) / 60⌋ : Int) = 0 := by norm_num
    have h2 : (⌊jsRem 0 60⌋ : Int) = 0 := by
      rw [jsRem, jsTrunc]
      norm_num
    simp only [formatTime, h1, h2]
    rfl
  · have h1 : (⌊(65 : ℚ) / 60⌋ : Int) = 1 := by norm_num
    have h2 : (⌊jsRem 65 60⌋ : Int) = 5 := by
      rw [jsRem, jsTrunc]
      norm_num
    simp only [formatTime, h1, h2]
    rfl
  · have h1 : (⌊(3599 : ℚ) / 60⌋ : Int) = 59 := by norm_num
    have h2 : (⌊jsRem 3599 60⌋ : Int) = 59 := by
      rw [jsRem, jsTrunc]
      norm_num
    simp only [formatTime, h1, h2]
    rfl

/-- Witness for C4: the general contract applied at the concrete non-negative
input 65. -/
theorem formatTime_meets_spec_witness :
    (0 : ℚ) ≤ 65 ∧ formatTime 65 = formatTimeSpec 65 :=
  ⟨by norm_num, formatTime_meets_spec.1 65 (by norm_num)⟩

/-- Claim C5 counterexample: with a present url and a clean-exit invocation
whose output is unparseable, the video-info request ends as an uncaught
exception inside the `exec` callback — which is not the claimed 500
"Video nicht gefunden" response (nor any response at all). -/
theorem videoInfo_unparseable_counterexample :
    videoInfoHandler parseInfoFail (.str "x") (.output "oops") = .uncaught ∧
    VideoInfoOutcome.uncaught ≠ .resp 500 (.errorMsg "Video nicht gefunden") :=
  ⟨rfl, by decide⟩

/-- Claim C5 as amended: for a fetch-metadata request with a present url, a
non-zero exit of the download utility yields the 500 "Video nicht gefunden"
response, but output that is not parseable as JSON makes the `JSON.parse`
throw escape the asynchronous `exec` callback uncaught, so no response is
sent for the request. -/
theorem videoInfo_failure_modes (parse : String → Option RawInfo) (url : JVal)
    (hu : truthy url = true) :
    videoInfoHandler parse url .failed = .resp 500 (.errorMsg "Video nicht gefunden") ∧
    (∀ stdout, parse stdout = none →
      videoInfoHandler parse url (.output stdout) = .uncaught) := by
  constructor
  · simp [videoInfoHandler, hu]
  · intro stdout hp
    simp [videoInfoHandler, hu, hp]

/-- Witness for the amended C5 at concrete inputs. -/
theorem videoInfo_failure_modes_witness :
    videoInfoHandler parseInfoFail (.str "x") .failed
        = .resp 500 (.errorMsg "Video nicht gefunden") ∧
    videoInfoHandler parseInfoFail (.str "x") (.output "not json") = .uncaught :=
  ⟨(videoInfo_failure_modes parseInfoFail (.str "x") (by decide)).1,
   (videoInfo_failure_modes parseInfoFail (.str "x") (by decide)).2 "not json" rfl⟩

/-- Claim C6 counterexample: with url the empty string (a field that is
present, hence not missing, but falsy), startTime 0 and duration 1, the
handler answers 400 without invoking any external process, although the
claim's rejection condition (url missing, startTime undefined, or duration
falsy) does not hold. -/
theorem createClip_emptyUrl_counterexample :
    (createClipHandler (.str "") (.num 0) (.num 1) none 0 (.ok ()) true).status = 400 ∧
    (createClipHandler (.str "") (.num 0) (.num 1) none 0 (.ok ()) true).execInvoked = false ∧
    claimedClipRejectCond (.str "") (.num 0) (.num 1) = false := by
  refine ⟨rfl, rfl, rfl⟩

/-- Claim C6 as amended: the create-clip handler answers 400 with an error
field and invokes no external process exactly when url is falsy (absent,
empty, …), startTime is undefined, or duration is falsy; in particular
startTime 0 passes validation while duration 0 is rejected. -/
theorem createClip_validation (url startTime duration : JVal)
    (clipName : Option String) (now : Nat) (ex : Except Unit Unit)
    (outExists : Bool) :
    (((createClipHandler url startTime duration clipName now ex outExists).status = 400 ∧
      (createClipHandler url startTime duration clipName now ex outExists).errorField.isSome = true ∧
      (createClipHandler url startTime duration clipName now ex outExists).execInvoked = false) ↔
      (truthy url = false ∨ isUndef startTime = true ∨ truthy duration = false)) ∧
    (createClipHandler (.str "x") (.num 0) (.num 0) none 0 (.ok ()) true).status = 400 ∧
    (createClipHandler (.str "x") (.num 0) (.num 1) none 0 (.ok ()) true).status ≠ 400 := by
  refine ⟨?_, rfl, by decide⟩
  cases hu : truthy url <;> cases hs : isUndef startTime <;>
    cases hd : truthy duration <;>
      rcases ex with e | v <;> cases outExists <;>
        simp [createClipHandler, hu, hs, hd]

/-- Claim C7: for every analyze-video request that passes validation (url
present, credential configured), the temporary audio file no longer exists
once the request completes, on the success path and on every error path. -/
theorem analyze_temp_file_removed (w : AnalyzeWorld) (hasKey : Bool) (url : JVal)
    (hu : truthy url = true) (hk : hasKey = true) :
    (analyzeVideoHandler w hasKey url).2 = false := by
  subst hk
  rcases w with ⟨er, leaves, tr, chat, parse⟩
  rcases er with e | u
  · cases leaves <;>
      simp [analyzeVideoHandler, hu, analyzeCatch, existsSync, unlinkFile]
  · rcases tr with e | t <;>
      simp [analyzeVideoHandler, hu, analyzeCatch, existsSync, unlinkFile]

/-- Witness for C7 at a concrete validated request. -/
theorem analyze_temp_file_removed_witness :
    (analyzeVideoHandler worldA true (.str "u")).2 = false :=
  analyze_temp_file_removed worldA true (.str "u") (by decide) rfl

/-- Claim C8 counterexample: when the chat reply's parsed JSON array contains
six items, the highlight list returned for the request has six entries, so its
length exceeds the claimed at-most-5 bound — the source never truncates. -/
theorem findHighlights_six_counterexample :
    (findHighlights parseSix (.ok (some "[six]")) trA).1.length = 6 ∧
    5 < (findHighlights parseSix (.ok (some "[six]")) trA).1.length := by decide

/-- Claim C8 as amended: the highlight list returned for a request has exactly
as many entries as the parsed JSON array; the at-most-5 bound is only
requested from the model in the prompt, never enforced. -/
theorem findHighlights_length_eq_parsed (parse : String → Option (List Highlight))
    (t : Transcription) (content : Option String) (matched : String)
    (hs : List Highlight)
    (hseg : (t.segments.getD []).isEmpty = false)
    (hm : jsMatchArray (effectiveResponse content) = some matched)
    (hp : parse matched = some hs) :
    (findHighlights parse (.ok content) t).1.length = hs.length := by
  have hres : (findHighlights parse (.ok content) t).1 = sortHighlights hs := by
    simp [findHighlights, hseg, hm, hp]
  rw [hres]
  exact (List.perm_insertionSort scoreGE hs).length_eq

/-- Witness for the amended C8: the six-item parse yields six entries. -/
theorem findHighlights_length_eq_parsed_witness :
    (findHighlights parseSix (.ok (some "[six]")) trA).1.length = 6 := by
  have h := findHighlights_length_eq_parsed parseSix trA (some "[six]") "[six]"
    sixHighlights (by decide) (by decide) rfl
  rw [h]
  rfl

/-- Claim C9: in a sweep cycle at time `now`, an entry whose stat and unlink
succeed is deleted exactly when its last-modified time is older than the
one-hour threshold, and survives otherwise; and the sweep of a listing splits
across concatenation, so entries before a failing entry never affect how the
remaining entries are processed. -/
theorem sweep_old_deleted_young_kept (now : Int) (e : DirEntry)
    (xs ys : List DirEntry)
    (hstat : e.statFails = false) (hunlink : e.unlinkFails = false) :
    (e.mtimeMs < now - 3600000 → e ∉ sweepDir now (xs ++ e :: ys)) ∧
    (now - 3600000 ≤ e.mtimeMs → e ∈ sweepDir now (xs ++ e :: ys)) ∧
    sweepDir now (xs ++ e :: ys) = sweepDir now xs ++ sweepDir now (e :: ys) := by
  refine ⟨?_, ?_, List.filter_append _ _⟩
  · intro hold hmem
    have hsur := (List.mem_filter.mp hmem).2
    simp [entrySurvives, cleanupThreshold, hstat, hold, hunlink] at hsur
  · intro hyoung
    refine List.mem_filter.mpr ⟨by simp, ?_⟩
    simp [entrySurvives, cleanupThreshold, hstat, not_lt.mpr hyoung]

/-- Witness for C9: at time 7200000, the hour-old entry is gone after the
sweep and the recent one survives. -/
theorem sweep_old_deleted_young_kept_witness :
    oldEntry ∉ sweepDir 7200000 ([youngEntry] ++ oldEntry :: []) ∧
    youngEntry ∈ sweepDir 7200000 ([oldEntry] ++ youngEntry :: []) :=
  ⟨(sweep_old_deleted_young_kept 7200000 oldEntry [youngEntry] [] rfl rfl).1
      (by decide),
   (sweep_old_deleted_young_kept 7200000 youngEntry [oldEntry] [] rfl rfl).2.1
      (by decide)⟩

/-- Every character of a sanitized name is in the safe class: each character
is the image of the underscore-substitution, and the underscore is safe. -/
theorem mem_sanitized_safe {c : Char} {l : List Char}
    (hc : c ∈ (l.map fun a => if isSafeFileChar a then a else '_').take 50) :
    isSafeFileChar c = true := by
  obtain ⟨a, _, ha⟩ := List.mem_map.mp (List.mem_of_mem_take hc)
  by_cases h : isSafeFileChar a = true
  · rw [if_pos h] at ha
    rw [← ha]
    exact h
  · rw [if_neg h] at ha
    rw [← ha]
    decide

/-- Claim C10: the sanitized base name contains only characters from
`[a-zA-Z0-9-_]` and is at most 50 characters long; a falsy clip name —
absent or the empty string — yields the default base name `clip`; and the
output filename is the base name, a hyphen, the timestamp, and `.mp4`. -/
theorem safeName_sanitizes (clipName : Option String) (now : Nat) :
    (∀ c ∈ (safeName clipName).data, isSafeFileChar c = true) ∧
    (safeName clipName).length ≤ 50 ∧
    ((clipName = none ∨ clipName = some "") → safeName clipName = "clip") ∧
    outputFile clipName now = safeName clipName ++ "-" ++ toString now ++ ".mp4" := by
  refine ⟨?_, ?_, ?_, rfl⟩
  · intro c hc
    exact mem_sanitized_safe hc
  · exact List.length_take_le 50 _
  · rintro (h | h) <;> subst h <;> decide

/-- Witness for C10: the empty-string clip name (falsy yet present) falls back
to the default base name. -/
theorem safeName_sanitizes_witness :
    safeName (some "") = "clip" ∧
    ((some "" = (none : Option String)) ∨ some "" = some "") :=
  ⟨(safeName_sanitizes (some "") 0).2.2.1 (Or.inr rfl), Or.inr rfl⟩
